import Mathlib

/-!
# A shallow embedding of linuxptp's `port.c`

This file models the per-port protocol engine of an IEEE 1588 ordinary
clock: the foreign-master table, the Announce/Sync/Follow_Up/Delay_Req/
Delay_Resp processors, best-foreign selection, the state-machine driver
and the event dispatcher.  External collaborators (clock, transport,
codec, FSM transition function, BMC comparator) enter as parameters or
as outcome flags in an environment record.  Reference counting of
message buffers and file-descriptor plumbing are not modelled; the
timers appear only as the abstract actions the driver performs on them.
-/

namespace LinuxPtp

/-- PortIdentity: (clockIdentity: 8 bytes, portNumber: u16).  The 8-byte
clock identity is abstracted as a number; bytewise equality coincides
with numeric equality. -/
structure PortIdentity where
  clockIdentity : Nat
  portNumber : Nat
  deriving DecidableEq, Repr

/-- ClockQuality as carried inside an Announce body. -/
structure ClockQuality where
  clockClass : Nat
  clockAccuracy : Nat
  offsetScaledLogVariance : Nat
  deriving DecidableEq, Repr

/-- The contiguous region of an Announce body compared by
`announce_compare`: grandmasterPriority1, grandmasterClockQuality,
grandmasterPriority2, grandmasterIdentity, stepsRemoved. -/
structure AnnounceFields where
  grandmasterPriority1 : Nat
  grandmasterClockQuality : ClockQuality
  grandmasterPriority2 : Nat
  grandmasterIdentity : Nat
  stepsRemoved : Nat
  deriving DecidableEq, Repr

/-- A `struct timespec` (hardware timestamp component `hwts.ts`). -/
structure Timespec where
  tv_sec : Int
  tv_nsec : Int
  deriving DecidableEq, Repr

/-- A decoded on-wire timestamp (`msg->ts.pdu`). -/
structure Timestamp where
  seconds : Int
  nanoseconds : Int
  deriving DecidableEq, Repr

/-- The wire split of a timestamp in a Delay_Resp body: big-endian
seconds_msb:16, seconds_lsb:32, nanoseconds:32.  Each field holds the
numeric value of its big-endian bytes; the host/network byte order of
the in-memory representation is below this abstraction. -/
structure WireTimestamp where
  seconds_msb : Nat
  seconds_lsb : Nat
  nanoseconds : Nat
  deriving DecidableEq, Repr

/-- Message types (`msg_type(msg)`). -/
inductive MsgType
  | SYNC | DELAY_REQ | PDELAY_REQ | PDELAY_RESP | FOLLOW_UP
  | DELAY_RESP | PDELAY_RESP_FOLLOW_UP | ANNOUNCE | SIGNALING | MANAGEMENT
  deriving DecidableEq, Repr

/-- The nine port states of `enum port_state`. -/
inductive port_state
  | PS_INITIALIZING | PS_FAULTY | PS_DISABLED | PS_LISTENING
  | PS_PRE_MASTER | PS_MASTER | PS_PASSIVE | PS_UNCALIBRATED
  | PS_SLAVE | PS_GRAND_MASTER
  deriving DecidableEq, Repr

/-- FSM events (`enum fsm_event`), restricted to those `port.c` emits
plus a generic remainder for driving the external transition function. -/
inductive fsm_event
  | EV_NONE
  | EV_INITIALIZE
  | EV_FAULT_DETECTED
  | EV_STATE_DECISION_EVENT
  | EV_ANNOUNCE_RECEIPT_TIMEOUT_EXPIRES
  | EV_OTHER
  deriving DecidableEq, Repr

/-- A decoded PTP message as the processors see it, flattened over the
union of the fields `port.c` reads.  `host_ns` is `msg->ts.host`
(monotonic capture time) in nanoseconds; `hwts` is `msg->hwts.ts`;
`pdu` is the on-wire timestamp in the body (`msg->ts.pdu`);
`flagsOneStep` is the `one_step(m)` header flag. -/
structure Message where
  tsmt : MsgType
  sequenceId : Nat
  sourcePortIdentity : PortIdentity
  domainNumber : Nat
  correction : Int
  logMessageInterval : Int
  flagsOneStep : Bool
  hwts : Timespec
  host_ns : Int
  pdu : Timestamp
  announce : AnnounceFields
  requestingPortIdentity : PortIdentity
  deriving DecidableEq, Repr

/-- The dataset distilled from an Announce for BMC ranking
(`struct dataset`). -/
structure Dataset where
  priority1 : Nat
  identity : Nat
  quality : ClockQuality
  priority2 : Nat
  stepsRemoved : Nat
  sender : PortIdentity
  receiver : PortIdentity
  deriving DecidableEq, Repr

/-- One foreign-master record (`struct foreign_clock`): the distilled
dataset (whose `sender` is the immutable key), the queue of retained
Announce messages newest-first, and the message counter. -/
structure foreign_clock where
  dataset : Dataset
  messages : List Message
  n_messages : Nat
  deriving DecidableEq, Repr

/-- The qualification count from `port.h` (not under `src/`).
Modelled from the spec: the standard value is 2. -/
def FOREIGN_MASTER_THRESHOLD : Nat := 2

def NSEC2SEC : Int := 1000000000

/-- An all-zero PortIdentity, as left by `memset(fc, 0, ...)`. -/
def zero_pid : PortIdentity := ⟨0, 0⟩

/-- An all-zero dataset, as left by `memset(fc, 0, ...)`. -/
def zero_dataset : Dataset :=
  ⟨0, 0, ⟨0, 0, 0⟩, 0, 0, zero_pid, zero_pid⟩

/-- 16-bit byte swap; `ntohs`/`htons` on a little-endian host.  Only the
Delay_Req sequenceId round-trips through it inside `port.c`. -/
def ntohs (n : Nat) : Nat := n % 256 * 256 + n / 256 % 256

/-- `msg_current`: a retained Announce is current iff less than
4 × 2^logMessageInterval seconds have elapsed since its capture. -/
def msg_current (m : Message) (now : Int) : Bool :=
  now - m.host_ns < 4 * 2 ^ m.logMessageInterval.toNat * NSEC2SEC

/-- `msg_source_equal`: the message's sourcePortIdentity equals the
record's dataset sender (bytewise). -/
def msg_source_equal (m : Message) (fc : foreign_clock) : Bool :=
  m.sourcePortIdentity = fc.dataset.sender

/-- `announce_compare` used as a boolean: the two Announce bodies differ
over the compared contiguous region. -/
def announce_compare (m1 m2 : Message) : Bool :=
  m1.announce ≠ m2.announce

/-- `fc_clear`: pop the tail `n_messages` times (releasing each
message), leaving the counter at zero. -/
def fc_clear_loop : Nat → List Message → List Message
  | 0, ms => ms
  | n + 1, ms => fc_clear_loop n ms.dropLast

/-- `fc_clear` on a record. -/
def fc_clear (fc : foreign_clock) : foreign_clock :=
  { fc with messages := fc_clear_loop fc.n_messages fc.messages,
            n_messages := 0 }

/-- First loop of `fc_prune`: while the counter exceeds
FOREIGN_MASTER_THRESHOLD, drop the oldest (tail) message. -/
def prune_excess : Nat → List Message → Nat × List Message
  | 0, ms => (0, ms)
  | n + 1, ms =>
    if n + 1 > FOREIGN_MASTER_THRESHOLD then prune_excess n ms.dropLast
    else (n + 1, ms)

/-- Second loop of `fc_prune`, fuelled by the queue length: while the
oldest remaining message is not current, drop it. -/
def prune_stale_fuel (now : Int) : Nat → Nat → List Message → Nat × List Message
  | 0, n, ms => (n, ms)
  | fuel + 1, n, ms =>
    match ms.getLast? with
    | none => (n, ms)
    | some m =>
      if msg_current m now then (n, ms)
      else prune_stale_fuel now fuel (n - 1) ms.dropLast

/-- `fc_prune`: trim the queue to the threshold, then drop stale tail
messages.  `now` stands for the CLOCK_MONOTONIC reading. -/
def fc_prune (now : Int) (fc : foreign_clock) : foreign_clock :=
  let r1 := prune_excess fc.n_messages fc.messages
  let r2 := prune_stale_fuel now r1.2.length r1.1 r1.2
  { fc with n_messages := r2.1, messages := r2.2 }

/-- Replace the first element satisfying the predicate (the record found
by `LIST_FOREACH` is updated in place). -/
def update_first (q : α → Bool) (f : α → α) : List α → List α
  | [] => []
  | x :: xs => if q x then f x :: xs else x :: update_first q f xs

/-- The record allocated for a new foreign master: zeroed, with the
sender key installed; its queue starts empty (the first Announce is not
counted, see 9.5.3(b)). -/
def new_foreign_clock (m : Message) : foreign_clock :=
  { dataset := { zero_dataset with sender := m.sourcePortIdentity },
    messages := [], n_messages := 0 }

/-- `add_foreign_master` on the foreign-master table.  Returns the
updated table and the non-zero-iff-important-change result: threshold
broken or content changed.  Allocation is assumed to succeed. -/
def add_foreign_master (now : Int) (fms : List foreign_clock) (m : Message) :
    List foreign_clock × Bool :=
  match fms.find? (fun fc => msg_source_equal m fc) with
  | none => (new_foreign_clock m :: fms, false)
  | some fc =>
    let pfc := fc_prune now fc
    let broke := decide (pfc.n_messages = FOREIGN_MASTER_THRESHOLD - 1)
    let fc' := { pfc with n_messages := pfc.n_messages + 1,
                          messages := m :: pfc.messages }
    let diff := if fc'.n_messages > 1 then
        match pfc.messages with
        | [] => false
        | tmp :: _ => announce_compare m tmp
      else false
    (update_first (fun fc2 => msg_source_equal m fc2) (fun _ => fc') fms,
     broke || diff)

/-- `announce_to_dataset`: project an Announce into a comparison
dataset; the receiver is the clock's current parent identity. -/
def announce_to_dataset (m : Message) (parent : PortIdentity) : Dataset :=
  { priority1 := m.announce.grandmasterPriority1,
    identity := m.announce.grandmasterIdentity,
    quality := m.announce.grandmasterClockQuality,
    priority2 := m.announce.grandmasterPriority2,
    stepsRemoved := m.announce.stepsRemoved,
    sender := m.sourcePortIdentity,
    receiver := parent }

/-- The slice of `struct port` the processors read and write.  The
`best` pointer is modelled by the sender key of the record it points at
(sender keys are unique in the table); `none` models NULL.  Retained
messages (`last_sync`, `last_follow_up`, `delay_req`) appear by value;
their reference counts are not modelled. -/
structure Port where
  state : port_state
  portIdentity : PortIdentity
  seqnum : Nat
  delay_req : Option Message
  last_sync : Option Message
  last_follow_up : Option Message
  logMinDelayReqInterval : Int
  foreign_masters : List foreign_clock
  best : Option PortIdentity
  deriving DecidableEq, Repr

/-- One invocation of `clock_synchronize(clock, ingress, origin, c1,
c2)`: T2 = Sync ingress hardware time, T1 = origin time from the
message body, and the two correction fields. -/
structure SyncCall where
  ingress : Timespec
  origin : Timestamp
  sync_correction : Int
  fup_correction : Int
  deriving DecidableEq, Repr

/-- One invocation of `clock_path_delay(clock, t3, t4, correction)`. -/
structure PathDelayCall where
  t3 : Timespec
  t4 : Timestamp
  correction : Int
  deriving DecidableEq, Repr

/-- `process_sync`.  `parent` is `clock_parent_identity(p->clock)`.
Returns the updated port and the `clock_synchronize` invocation, if
any. -/
def process_sync (parent : PortIdentity) (p : Port) (m : Message) :
    Port × Option SyncCall :=
  match p.state with
  | .PS_INITIALIZING | .PS_FAULTY | .PS_DISABLED | .PS_LISTENING
  | .PS_PRE_MASTER | .PS_MASTER | .PS_GRAND_MASTER | .PS_PASSIVE => (p, none)
  | .PS_UNCALIBRATED | .PS_SLAVE =>
    if m.sourcePortIdentity ≠ parent then (p, none)
    else if m.flagsOneStep then
      (p, some ⟨m.hwts, m.pdu, m.correction, 0⟩)
    else
      match p.last_follow_up with
      | some fup =>
        if fup.sequenceId = m.sequenceId then
          (p, some ⟨m.hwts, fup.pdu, m.correction, fup.correction⟩)
        else ({ p with last_sync := some m }, none)
      | none => ({ p with last_sync := some m }, none)

/-- `process_follow_up`. -/
def process_follow_up (parent : PortIdentity) (p : Port) (m : Message) :
    Port × Option SyncCall :=
  match p.state with
  | .PS_INITIALIZING | .PS_FAULTY | .PS_DISABLED | .PS_LISTENING
  | .PS_PRE_MASTER | .PS_MASTER | .PS_GRAND_MASTER | .PS_PASSIVE => (p, none)
  | .PS_UNCALIBRATED | .PS_SLAVE =>
    if m.sourcePortIdentity ≠ parent then (p, none)
    else
      match p.last_sync with
      | none => ({ p with last_follow_up := some m }, none)
      | some syn =>
        if syn.sequenceId ≠ m.sequenceId then
          ({ p with last_follow_up := some m }, none)
        else if syn.sourcePortIdentity ≠ m.sourcePortIdentity then (p, none)
        else (p, some ⟨syn.hwts, m.pdu, syn.correction, m.correction⟩)

/-- `process_delay_resp`.  The retained request went through
`msg_pre_send`, so its sequenceId field sits in network byte order and
the comparison converts it with `ntohs`. -/
def process_delay_resp (p : Port) (m : Message) : Port × Option PathDelayCall :=
  match p.delay_req with
  | none => (p, none)
  | some req =>
    match p.state with
    | .PS_UNCALIBRATED | .PS_SLAVE =>
      if m.requestingPortIdentity ≠ req.sourcePortIdentity then (p, none)
      else if m.sequenceId ≠ ntohs req.sequenceId then (p, none)
      else
        let p' := if p.logMinDelayReqInterval ≠ m.logMessageInterval then
            { p with logMinDelayReqInterval := m.logMessageInterval }
          else p
        (p', some ⟨req.hwts, m.pdu, m.correction⟩)
    | _ => (p, none)

/-- External outcomes of one `port_event` call: codec and transport
results, the decoded frame on the network path, the clock's domain
number, and the egress hardware timestamp a successful event send
captures. -/
structure PortEnv where
  allocOk : Bool
  recvOk : Bool
  postRecvOk : Bool
  recvMsg : Message
  reqAllocOk : Bool
  replyAllocOk : Bool
  preSendOk : Bool
  sendOk : Bool
  domainNumber : Nat
  txHwts : Timespec
  deriving DecidableEq, Repr

/-- The zero Announce body `memset` leaves in a fresh message. -/
def zero_announce : AnnounceFields := ⟨0, ⟨0, 0, 0⟩, 0, 0, 0⟩

/-- The Delay_Req message retained after a successful
`port_delay_request`: zeroed, header filled, byte-swapped by
`msg_pre_send` (visible on the sequenceId), with the egress hardware
timestamp captured by the send. -/
def delay_req_message (p : Port) (env : PortEnv) : Message :=
  { tsmt := .DELAY_REQ,
    sequenceId := ntohs p.seqnum,
    sourcePortIdentity := p.portIdentity,
    domainNumber := env.domainNumber,
    correction := 0,
    logMessageInterval := 0x7f,
    flagsOneStep := false,
    hwts := env.txHwts,
    host_ns := 0,
    pdu := ⟨0, 0⟩,
    announce := zero_announce,
    requestingPortIdentity := zero_pid }

/-- `port_delay_request`: allocate, fill the header (post-incrementing
`seqnum`), `msg_pre_send`, send on the event channel; only on success
replace the retained `delay_req` (releasing the previous one).  The
Bool is true on success (`0`), false on the error return (`-1`). -/
def port_delay_request (p : Port) (env : PortEnv) : Port × Bool :=
  if env.reqAllocOk = false then (p, false)
  else
    let msg := delay_req_message p env
    let p' := { p with seqnum := (p.seqnum + 1) % 65536 }
    if env.preSendOk = false then (p', false)
    else if env.sendOk = false then (p', false)
    else ({ p' with delay_req := some msg }, true)

/-- `update_current_master`: in UNCALIBRATED/SLAVE, an Announce whose
sender matches `best` rearms the announce timer (timer not modelled
here), prunes and prepends; otherwise fall back to
`add_foreign_master`.  The C code dereferences `p->best`
unconditionally; the NULL case (unreachable in those states) is
modelled through the non-matching fallback. -/
def update_current_master (now : Int) (p : Port) (m : Message) : Port × Bool :=
  match p.best.bind (fun key =>
      p.foreign_masters.find? (fun fc => decide (fc.dataset.sender = key))) with
  | some fc =>
    if msg_source_equal m fc then
      let pfc := fc_prune now fc
      let fc' := { pfc with n_messages := pfc.n_messages + 1,
                            messages := m :: pfc.messages }
      let diff := if fc'.n_messages > 1 then
          match pfc.messages with
          | [] => false
          | tmp :: _ => announce_compare m tmp
        else false
      let fms' := update_first
          (fun fc2 => decide (fc2.dataset.sender = fc.dataset.sender))
          (fun _ => fc') p.foreign_masters
      ({ p with foreign_masters := fms' }, diff)
    else
      let r := add_foreign_master now p.foreign_masters m
      ({ p with foreign_masters := r.1 }, r.2)
  | none =>
    let r := add_foreign_master now p.foreign_masters m
    ({ p with foreign_masters := r.1 }, r.2)

/-- `process_announce`: the state gate selecting between
`add_foreign_master` and `update_current_master`. -/
def process_announce (now : Int) (p : Port) (m : Message) : Port × Bool :=
  match p.state with
  | .PS_INITIALIZING | .PS_FAULTY | .PS_DISABLED => (p, false)
  | .PS_LISTENING | .PS_PRE_MASTER | .PS_MASTER | .PS_GRAND_MASTER
  | .PS_PASSIVE =>
    let r := add_foreign_master now p.foreign_masters m
    ({ p with foreign_masters := r.1 }, r.2)
  | .PS_UNCALIBRATED | .PS_SLAVE => update_current_master now p m

/-- The Delay_Resp frame built by `process_delay_req`. -/
structure DelayResp where
  domainNumber : Nat
  correction : Int
  sourcePortIdentity : PortIdentity
  sequenceId : Nat
  logMessageInterval : Int
  receiveTimestamp : WireTimestamp
  requestingPortIdentity : PortIdentity
  deriving DecidableEq, Repr

/-- The body `process_delay_req` fills: header copied from the request,
receiveTimestamp from the request's ingress hardware timestamp with
seconds_lsb = htonl(tv_sec) (the value truncated to 32 bits) and
seconds_msb = htons(0). -/
def build_delay_resp (p : Port) (m : Message) : DelayResp :=
  { domainNumber := m.domainNumber,
    correction := m.correction,
    sourcePortIdentity := p.portIdentity,
    sequenceId := m.sequenceId,
    logMessageInterval := p.logMinDelayReqInterval,
    receiveTimestamp :=
      { seconds_msb := 0,
        seconds_lsb := (m.hwts.tv_sec % (2 ^ 32 : Int)).toNat,
        nanoseconds := (m.hwts.tv_nsec % (2 ^ 32 : Int)).toNat },
    requestingPortIdentity := m.sourcePortIdentity }

/-- `process_delay_req`: only in MASTER/GRAND_MASTER; allocate, build
the response, `msg_pre_send`, send on the general channel.  Returns the
sent response on success and `none` on the `-1` error return. -/
def process_delay_req (p : Port) (env : PortEnv) (m : Message) :
    Option DelayResp :=
  match p.state with
  | .PS_MASTER | .PS_GRAND_MASTER =>
    if env.replyAllocOk = false then none
    else
      let resp := build_delay_resp p m
      if env.preSendOk = false then none
      else if env.sendOk = false then none
      else some resp
  | _ => none

/-- One pass of the `port_compute_best` loop body over a single record,
carried over (records emitted so far, running best). -/
def compute_best_step (dscmp : Dataset → Dataset → Int) (now : Int)
    (parent : PortIdentity) (acc : List foreign_clock × Option foreign_clock)
    (fc : foreign_clock) : List foreign_clock × Option foreign_clock :=
  match fc.messages.head? with
  | none => (acc.1 ++ [fc], acc.2)
  | some tmp =>
    let pfc := fc_prune now fc
    if pfc.n_messages < FOREIGN_MASTER_THRESHOLD then (acc.1 ++ [pfc], acc.2)
    else
      let qfc := { pfc with dataset := announce_to_dataset tmp parent }
      match acc.2 with
      | none => (acc.1 ++ [qfc], some qfc)
      | some best =>
        if dscmp qfc.dataset best.dataset > 0 then (acc.1 ++ [qfc], some qfc)
        else (acc.1 ++ [fc_clear qfc], acc.2)

/-- `port_compute_best` over the foreign-master table.  `dscmp` is the
external BMC comparator and `parent` the clock's parent identity.
Returns the table after the in-place pruning/clearing and the selected
best record, if any. -/
def port_compute_best (dscmp : Dataset → Dataset → Int) (now : Int)
    (parent : PortIdentity) (fms : List foreign_clock) :
    List foreign_clock × Option foreign_clock :=
  fms.foldl (compute_best_step dscmp now parent) ([], none)

/-- The timer manipulations `port_dispatch` performs. -/
inductive timer_action
  | set_announce_tmo | set_delay_tmo | clr_announce_tmo | clr_delay_tmo
  deriving DecidableEq, Repr

/-- `port_dispatch`.  `fsm` is the external pure transition function
`ptp_fsm`; `initOk` collapses the outcome of port initialization (which
resets the interval knobs before any fallible step and arms the
announce timer on success). -/
def port_dispatch (fsm : port_state → fsm_event → port_state) (initOk : Bool)
    (p : Port) (ev : fsm_event) : Port × List timer_action :=
  let next := fsm p.state ev
  if next = .PS_INITIALIZING then
    let p' := { p with logMinDelayReqInterval := 0 }
    if initOk then ({ p' with state := .PS_LISTENING }, [.set_announce_tmo])
    else ({ p' with state := .PS_FAULTY }, [])
  else if next = p.state then (p, [])
  else
    match next with
    | .PS_INITIALIZING | .PS_FAULTY | .PS_DISABLED =>
      ({ p with state := next }, [.clr_announce_tmo, .clr_delay_tmo])
    | .PS_LISTENING =>
      ({ p with state := next }, [.set_announce_tmo, .clr_delay_tmo])
    | .PS_PRE_MASTER | .PS_MASTER | .PS_GRAND_MASTER =>
      ({ p with state := next }, [.clr_announce_tmo, .clr_delay_tmo])
    | .PS_PASSIVE =>
      ({ p with state := next }, [.set_announce_tmo, .clr_delay_tmo])
    | .PS_UNCALIBRATED | .PS_SLAVE =>
      ({ p with state := next }, [.set_announce_tmo, .set_delay_tmo])

/-- The descriptor slot `port_event` is told fired: one of the two
timers, or a network descriptor. -/
inductive FdIndex
  | FD_ANNOUNCE_TIMER | FD_DELAY_TIMER | FD_NET
  deriving DecidableEq, Repr

/-- `port_event`: the per-descriptor dispatcher.  Timer paths rearm and
act; the network path allocates, receives, validates and dispatches by
message type.  The int returned by `process_delay_req` is discarded,
exactly as in the source. -/
def port_event (parent : PortIdentity) (now : Int) (p : Port) (fd : FdIndex)
    (env : PortEnv) : fsm_event × Port :=
  match fd with
  | .FD_ANNOUNCE_TIMER =>
    let p' := match p.best with
      | some key =>
        let fms' := update_first (fun fc => decide (fc.dataset.sender = key))
          fc_clear p.foreign_masters
        { p with foreign_masters := fms' }
      | none => p
    (.EV_ANNOUNCE_RECEIPT_TIMEOUT_EXPIRES, p')
  | .FD_DELAY_TIMER =>
    let r := port_delay_request p env
    (if r.2 then .EV_NONE else .EV_FAULT_DETECTED, r.1)
  | .FD_NET =>
    if env.allocOk = false then (.EV_FAULT_DETECTED, p)
    else if env.recvOk = false then (.EV_FAULT_DETECTED, p)
    else if env.postRecvOk = false then (.EV_NONE, p)
    else
      let m := env.recvMsg
      match m.tsmt with
      | .SYNC => (.EV_NONE, (process_sync parent p m).1)
      | .DELAY_REQ =>
        let _r := process_delay_req p env m
        (.EV_NONE, p)
      | .PDELAY_REQ | .PDELAY_RESP => (.EV_NONE, p)
      | .FOLLOW_UP => (.EV_NONE, (process_follow_up parent p m).1)
      | .DELAY_RESP => (.EV_NONE, (process_delay_resp p m).1)
      | .PDELAY_RESP_FOLLOW_UP => (.EV_NONE, p)
      | .ANNOUNCE =>
        let r := process_announce now p m
        (if r.2 then .EV_STATE_DECISION_EVENT else .EV_NONE, r.1)
      | .SIGNALING | .MANAGEMENT => (.EV_NONE, p)

/-- Well-formedness of a record: the counter matches the queue. -/
def fc_wf (fc : foreign_clock) : Prop :=
  fc.n_messages = fc.messages.length

/-- The invariant the table actually maintains: the counter matches the
queue and never exceeds FOREIGN_MASTER_THRESHOLD + 1. -/
def fc_inv (fc : foreign_clock) : Prop :=
  fc.n_messages = fc.messages.length ∧
  fc.n_messages ≤ FOREIGN_MASTER_THRESHOLD + 1

/-! Concrete sample data used by the witnesses and counterexamples. -/

def pidA : PortIdentity := ⟨0xA1, 1⟩

def pidB : PortIdentity := ⟨0xB2, 1⟩

def annX : AnnounceFields := ⟨128, ⟨248, 254, 65535⟩, 128, 0xA1, 0⟩

def annY : AnnounceFields := ⟨127, ⟨248, 254, 65535⟩, 128, 0xB2, 1⟩

/-- A template message from `pidA`; each sample below overrides the
fields it cares about. -/
def base_msg : Message :=
  { tsmt := .ANNOUNCE, sequenceId := 0, sourcePortIdentity := pidA,
    domainNumber := 0, correction := 0, logMessageInterval := 1,
    flagsOneStep := false, hwts := ⟨0, 0⟩, host_ns := 0, pdu := ⟨0, 0⟩,
    announce := annX, requestingPortIdentity := zero_pid }

/-- A slave port with parent `pidA` and no retained messages. -/
def slave_port : Port :=
  { state := .PS_SLAVE, portIdentity := pidB, seqnum := 0,
    delay_req := none, last_sync := none, last_follow_up := none,
    logMinDelayReqInterval := 0, foreign_masters := [], best := none }

def c1_sync : Message :=
  { base_msg with tsmt := .SYNC, sequenceId := 42, hwts := ⟨100, 0⟩,
                  correction := 7 }

def c1_fup : Message :=
  { base_msg with tsmt := .FOLLOW_UP, sequenceId := 42, pdu := ⟨90, 0⟩,
                  correction := 3 }

def c2_msg (k : Nat) : Message := { base_msg with sequenceId := k }

/-- A record for sender `pidA` holding one current Announce. -/
def c2_fc : foreign_clock :=
  { dataset := { zero_dataset with sender := pidA },
    messages := [c2_msg 1], n_messages := 1 }

/-- A record for sender `pidA` already holding two current Announces:
adding a third keeps all three. -/
def c3_fc : foreign_clock :=
  { dataset := { zero_dataset with sender := pidA },
    messages := [c2_msg 2, c2_msg 1], n_messages := 2 }

def c5_msg : Message :=
  { base_msg with tsmt := .SYNC, sequenceId := 5, flagsOneStep := true,
                  hwts := ⟨100, 0⟩, pdu := ⟨90, 0⟩, correction := 7 }

/-- A retained Delay_Req as `port_delay_request` leaves it: sequenceId 7
in network byte order, egress timestamp 200 s. -/
def c6_req : Message :=
  { base_msg with tsmt := .DELAY_REQ, sequenceId := ntohs 7,
                  sourcePortIdentity := pidB, hwts := ⟨200, 0⟩ }

def c6_resp : Message :=
  { base_msg with tsmt := .DELAY_RESP, sequenceId := 7,
                  requestingPortIdentity := pidB, pdu := ⟨210, 0⟩,
                  correction := 1, logMessageInterval := 0 }

/-- A slave port with the Delay_Req outstanding. -/
def c6_port : Port := { slave_port with delay_req := some c6_req }

def master_port : Port :=
  { state := .PS_MASTER, portIdentity := pidB, seqnum := 0,
    delay_req := none, last_sync := none, last_follow_up := none,
    logMinDelayReqInterval := 0, foreign_masters := [], best := none }

/-- Sync ingress at 2^32 seconds: its low 32 bits of seconds are zero. -/
def c7_msg : Message :=
  { base_msg with tsmt := .DELAY_REQ, sequenceId := 9,
                  hwts := ⟨2 ^ 32, 5⟩ }

def c7w_msg : Message :=
  { base_msg with tsmt := .DELAY_REQ, sequenceId := 9,
                  hwts := ⟨1234, 5⟩ }

/-- An environment where everything works except the transport send. -/
def send_fail_env : PortEnv :=
  { allocOk := true, recvOk := true, postRecvOk := true,
    recvMsg := c7_msg, reqAllocOk := true, replyAllocOk := true,
    preSendOk := true, sendOk := false, domainNumber := 0,
    txHwts := ⟨0, 0⟩ }

/-- An environment where everything works. -/
def all_ok_env : PortEnv :=
  { send_fail_env with sendOk := true }

/-- A transition function that always yields INITIALIZING — the shape
`ptp_fsm` must take on the bootstrap path for initialization to ever
run. -/
def c9_fsm : port_state → fsm_event → port_state := fun _ _ => .PS_INITIALIZING

/-- The identity-ish transition function: always stay. -/
def c9_stay_fsm : port_state → fsm_event → port_state := fun s _ => s

def c9_port : Port := { slave_port with state := .PS_INITIALIZING }

instance (fc : foreign_clock) : Decidable (fc_wf fc) := by
  unfold fc_wf; infer_instance

instance (fc : foreign_clock) : Decidable (fc_inv fc) := by
  unfold fc_inv; infer_instance

/-! ## Helper lemmas on the record operations -/

/-- The first prune loop never leaves the counter above the
threshold. -/
theorem prune_excess_le (n : Nat) (ms : List Message) :
    (prune_excess n ms).1 ≤ FOREIGN_MASTER_THRESHOLD := by
  induction n generalizing ms with
  | zero => simp [prune_excess]
  | succ k ih =>
    rw [prune_excess]
    split
    · exact ih _
    · next h => exact Nat.le_of_not_lt h

/-- The first prune loop keeps the counter equal to the queue
length. -/
theorem prune_excess_wf (n : Nat) (ms : List Message) (h : n = ms.length) :
    (prune_excess n ms).1 = (prune_excess n ms).2.length := by
  induction n generalizing ms with
  | zero => simpa [prune_excess] using h
  | succ k ih =>
    rw [prune_excess]
    split
    · exact ih _ (by rw [List.length_dropLast, ← h]; omega)
    · exact h

/-- The stale-message loop only ever lowers the counter. -/
theorem prune_stale_fuel_le (now : Int) (fuel n : Nat) (ms : List Message) :
    (prune_stale_fuel now fuel n ms).1 ≤ n := by
  induction fuel generalizing n ms with
  | zero => simp [prune_stale_fuel]
  | succ k ih =>
    rw [prune_stale_fuel]
    cases ms.getLast? with
    | none => simp
    | some m =>
      dsimp only
      split
      · exact Nat.le_refl _
      · exact Nat.le_trans (ih _ _) (Nat.sub_le _ _)

/-- The stale-message loop keeps the counter equal to the queue
length. -/
theorem prune_stale_fuel_wf (now : Int) (fuel n : Nat) (ms : List Message)
    (h : n = ms.length) :
    (prune_stale_fuel now fuel n ms).1 = (prune_stale_fuel now fuel n ms).2.length := by
  induction fuel generalizing n ms with
  | zero => simpa [prune_stale_fuel] using h
  | succ k ih =>
    rw [prune_stale_fuel]
    cases hl : ms.getLast? with
    | none => simpa using h
    | some m =>
      dsimp only
      split
      · exact h
      · refine ih _ _ ?_
        have hne : ms ≠ [] := by
          intro e
          subst e
          simp at hl
        rw [List.length_dropLast, ← h]

/-- After `fc_prune`, the counter is at most the threshold. -/
theorem fc_prune_le (now : Int) (fc : foreign_clock) :
    (fc_prune now fc).n_messages ≤ FOREIGN_MASTER_THRESHOLD := by
  unfold fc_prune
  exact Nat.le_trans (prune_stale_fuel_le _ _ _ _) (prune_excess_le _ _)

/-- `fc_prune` preserves well-formedness. -/
theorem fc_prune_wf (now : Int) (fc : foreign_clock) (h : fc_wf fc) :
    fc_wf (fc_prune now fc) := by
  unfold fc_wf at h ⊢
  unfold fc_prune
  exact prune_stale_fuel_wf _ _ _ _ (prune_excess_wf _ _ h)

/-- `fc_prune` does not touch the dataset. -/
theorem fc_prune_dataset (now : Int) (fc : foreign_clock) :
    (fc_prune now fc).dataset = fc.dataset := rfl

/-- Pruning an empty well-formed record is the identity on the
counter. -/
theorem fc_prune_empty (now : Int) (fc : foreign_clock)
    (h1 : fc.messages = []) (h2 : fc.n_messages = 0) :
    (fc_prune now fc).n_messages = 0 := by
  simp [fc_prune, h1, h2, prune_excess, prune_stale_fuel]

/-- The clear loop empties any queue no longer than its fuel. -/
theorem fc_clear_loop_all (n : Nat) : ∀ ms : List Message,
    ms.length ≤ n → fc_clear_loop n ms = [] := by
  induction n with
  | zero =>
    intro ms h
    rw [List.length_eq_zero.mp (Nat.le_zero.mp h)]
    rfl
  | succ k ih =>
    intro ms h
    rw [fc_clear_loop]
    exact ih _ (by rw [List.length_dropLast]; omega)

/-- Clearing a well-formed record empties its queue. -/
theorem fc_clear_empty (fc : foreign_clock) (h : fc_wf fc) :
    (fc_clear fc).messages = [] :=
  fc_clear_loop_all _ _ (Nat.le_of_eq h.symm)

/-- Membership in `update_first` with a constant replacement. -/
theorem update_first_mem {α : Type} {P : α → Prop} (q : α → Bool) (y : α)
    (l : List α) (hl : ∀ x ∈ l, P x) (hy : P y) :
    ∀ z ∈ update_first q (fun _ => y) l, P z := by
  induction l with
  | nil => intro z hz; simp [update_first] at hz
  | cons x xs ih =>
    intro z hz
    rw [update_first] at hz
    split at hz
    · rcases List.mem_cons.mp hz with hz1 | hz2
      · exact hz1 ▸ hy
      · exact hl z (List.mem_cons_of_mem _ hz2)
    · rcases List.mem_cons.mp hz with hz1 | hz2
      · exact hz1 ▸ hl x (List.mem_cons_self _ _)
      · exact ih (fun a ha => hl a (List.mem_cons_of_mem _ ha)) z hz2

/-- The updated record of an `add_foreign_master` hit satisfies the
real invariant: counter matched and at most THRESHOLD + 1. -/
theorem added_record_inv (now : Int) (fc0 : foreign_clock) (m : Message)
    (hwf : fc_wf fc0) :
    fc_inv { fc_prune now fc0 with
             n_messages := (fc_prune now fc0).n_messages + 1,
             messages := m :: (fc_prune now fc0).messages } := by
  have hpwf : fc_wf (fc_prune now fc0) := fc_prune_wf now fc0 hwf
  have hple := fc_prune_le now fc0
  constructor
  · show (fc_prune now fc0).n_messages + 1 = (m :: (fc_prune now fc0).messages).length
    rw [List.length_cons, hpwf]
  · exact Nat.add_le_add_right hple 1

/-- `add_foreign_master` preserves the real invariant on every
record. -/
theorem add_foreign_master_inv (now : Int) (fms : List foreign_clock)
    (m : Message) (h : ∀ fc ∈ fms, fc_inv fc) :
    ∀ fc' ∈ (add_foreign_master now fms m).1, fc_inv fc' := by
  rcases hf : fms.find? (fun fc => msg_source_equal m fc) with _ | fc0
  · intro fc' h'
    simp only [add_foreign_master, hf] at h'
    rcases List.mem_cons.mp h' with e | hm
    · subst e
      exact ⟨rfl, by simp [new_foreign_clock]⟩
    · exact h _ hm
  · intro fc' h'
    simp only [add_foreign_master, hf] at h'
    have hwf0 : fc_wf fc0 := (h _ (List.mem_of_find?_eq_some hf)).1
    exact update_first_mem _ _ _ h (added_record_inv now fc0 m hwf0) fc' h'

/-- `update_current_master` preserves the real invariant on every
record. -/
theorem update_current_master_inv (now : Int) (p : Port) (m : Message)
    (h : ∀ fc ∈ p.foreign_masters, fc_inv fc) :
    ∀ fc' ∈ (update_current_master now p m).1.foreign_masters, fc_inv fc' := by
  rcases hb : p.best.bind (fun key =>
      p.foreign_masters.find? (fun fc => decide (fc.dataset.sender = key))) with _ | fc0
  · intro fc' h'
    simp only [update_current_master, hb] at h'
    exact add_foreign_master_inv now p.foreign_masters m h fc' h'
  · intro fc' h'
    simp only [update_current_master, hb] at h'
    split at h'
    · rcases Option.bind_eq_some.mp hb with ⟨key, _, hfind⟩
      have hwf0 : fc_wf fc0 := (h _ (List.mem_of_find?_eq_some hfind)).1
      exact update_first_mem _ _ _ h (added_record_inv now fc0 m hwf0) fc' h'
    · exact add_foreign_master_inv now p.foreign_masters m h fc' h'

/-- When does one selection step leave the running best unset: only if
it was unset and the record under scrutiny is empty or unqualified
after pruning. -/
theorem compute_best_step_none_iff (d : Dataset → Dataset → Int) (now : Int)
    (parent : PortIdentity) (acc : List foreign_clock × Option foreign_clock)
    (fc : foreign_clock) :
    (compute_best_step d now parent acc fc).2 = none ↔
      (acc.2 = none ∧ (fc.messages.head? = none ∨
        (fc_prune now fc).n_messages < FOREIGN_MASTER_THRESHOLD)) := by
  unfold compute_best_step
  cases hh : fc.messages.head? with
  | none => simp
  | some tmp =>
    dsimp only
    split
    · next hlt => simp [hlt]
    · next hge =>
      cases ha : acc.2 with
      | none => simp [hge]
      | some best =>
        dsimp only
        split <;> simp [hge]

/-- Over the whole loop: the selection is empty iff it started empty
and every record was empty or unqualified. -/
theorem compute_best_fold_none_iff (d : Dataset → Dataset → Int) (now : Int)
    (parent : PortIdentity) :
    ∀ (fms : List foreign_clock) (acc : List foreign_clock × Option foreign_clock),
      ((List.foldl (compute_best_step d now parent) acc fms).2 = none ↔
        (acc.2 = none ∧ ∀ fc ∈ fms,
          (fc.messages.head? = none ∨
           (fc_prune now fc).n_messages < FOREIGN_MASTER_THRESHOLD))) := by
  intro fms
  induction fms with
  | nil =>
    intro acc
    simp
  | cons fc rest ih =>
    intro acc
    rw [List.foldl_cons, ih, compute_best_step_none_iff]
    constructor
    · rintro ⟨⟨h1, h2⟩, h3⟩
      refine ⟨h1, fun fc' h' => ?_⟩
      rcases List.mem_cons.mp h' with e | hm
      · exact e ▸ h2
      · exact h3 fc' hm
    · rintro ⟨h1, h2⟩
      exact ⟨⟨h1, h2 fc (List.mem_cons_self _ _)⟩,
             fun fc' h' => h2 fc' (List.mem_cons_of_mem _ h')⟩

/-- For a well-formed record, being skipped by the loop (empty queue or
below threshold after pruning) is the same as being unqualified after
pruning. -/
theorem unqual_iff (now : Int) (fc : foreign_clock) (hwf : fc_wf fc) :
    (fc.messages.head? = none ∨
      (fc_prune now fc).n_messages < FOREIGN_MASTER_THRESHOLD) ↔
    (fc_prune now fc).n_messages < FOREIGN_MASTER_THRESHOLD := by
  constructor
  · rintro (h | h)
    · have hm : fc.messages = [] := List.head?_eq_none_iff.mp h
      have hn : fc.n_messages = 0 := by rw [hwf, hm]; rfl
      rw [fc_prune_empty now fc hm hn]
      decide
    · exact h
  · exact Or.inr

/-- The invariant of the selection loop: whatever record it finally
settles on, no qualified record it has seen — nor any best it started
from — beats that record under a comparator that is asymmetric and
negatively transitive. -/
theorem compute_best_sound (d : Dataset → Dataset → Int) (now : Int)
    (parent : PortIdentity)
    (Hasym : ∀ a b, 0 < d a b → d b a ≤ 0)
    (Hnegtr : ∀ a b c, d a b ≤ 0 → d b c ≤ 0 → d a c ≤ 0) :
    ∀ (fms : List foreign_clock) (acc : List foreign_clock × Option foreign_clock)
      (b : foreign_clock),
      (List.foldl (compute_best_step d now parent) acc fms).2 = some b →
      ((∀ fc ∈ fms, ∀ tmp, fc.messages.head? = some tmp →
          FOREIGN_MASTER_THRESHOLD ≤ (fc_prune now fc).n_messages →
          d (announce_to_dataset tmp parent) b.dataset ≤ 0)
       ∧ (∀ b0, acc.2 = some b0 → d b0.dataset b.dataset ≤ 0)) := by
  intro fms
  induction fms with
  | nil =>
    intro acc b h
    simp only [List.foldl_nil] at h
    refine ⟨by simp, ?_⟩
    intro b0 hb0
    rw [h] at hb0
    injection hb0 with e
    subst e
    by_contra hc
    exact absurd (Hasym _ _ (not_le.mp hc)) hc
  | cons fc rest ih =>
    intro acc b h
    rw [List.foldl_cons] at h
    obtain ⟨IH1, IH2⟩ := ih (compute_best_step d now parent acc fc) b h
    constructor
    · intro fc' hfc' tmp hhead hq
      rcases List.mem_cons.mp hfc' with e | hmem
      · subst e
        have hnotlt : ¬((fc_prune now fc').n_messages < FOREIGN_MASTER_THRESHOLD) :=
          not_lt.mpr hq
        cases ha : acc.2 with
        | none =>
          have hstep : (compute_best_step d now parent acc fc').2 =
              some { fc_prune now fc' with
                     dataset := announce_to_dataset tmp parent } := by
            simp [compute_best_step, hhead, hnotlt, ha]
          simpa using IH2 _ hstep
        | some best =>
          by_cases hgt : d (announce_to_dataset tmp parent) best.dataset > 0
          · have hstep : (compute_best_step d now parent acc fc').2 =
                some { fc_prune now fc' with
                       dataset := announce_to_dataset tmp parent } := by
              simp [compute_best_step, hhead, hnotlt, ha, hgt]
            simpa using IH2 _ hstep
          · have hstep : (compute_best_step d now parent acc fc').2 = some best := by
              simp [compute_best_step, hhead, hnotlt, ha, hgt]
            exact Hnegtr _ _ _ (not_lt.mp hgt) (IH2 best hstep)
      · exact IH1 fc' hmem tmp hhead hq
    · intro b0 hb0
      cases hh : fc.messages.head? with
      | none =>
        have hstep : (compute_best_step d now parent acc fc).2 = some b0 := by
          simp [compute_best_step, hh, hb0]
        exact IH2 b0 hstep
      | some tmp =>
        by_cases hlt : (fc_prune now fc).n_messages < FOREIGN_MASTER_THRESHOLD
        · have hstep : (compute_best_step d now parent acc fc).2 = some b0 := by
            simp [compute_best_step, hh, hlt, hb0]
          exact IH2 b0 hstep
        · by_cases hgt : d (announce_to_dataset tmp parent) b0.dataset > 0
          · have hstep : (compute_best_step d now parent acc fc).2 =
                some { fc_prune now fc with
                       dataset := announce_to_dataset tmp parent } := by
              simp [compute_best_step, hh, hlt, hb0, hgt]
            exact Hnegtr _ _ _ (Hasym _ _ hgt) (by simpa using IH2 _ hstep)
          · have hstep : (compute_best_step d now parent acc fc).2 = some b0 := by
              simp [compute_best_step, hh, hlt, hb0, hgt]
            exact IH2 b0 hstep

/-! ## Claim theorems -/

/-- C1: For a two-step Sync and Follow_Up pair from the clock's parent
identity with equal sequenceId, delivered once each to a port in SLAVE
(or UNCALIBRATED) state in either order, `clock_synchronize` is invoked
exactly once — by the second delivery — and with the same argument
tuple (sync ingress hwts, follow-up pdu origin time, sync correction,
follow-up correction) regardless of which message arrived first. -/
theorem C1_sync_follow_up_order_independent
    (p : Port) (parent : PortIdentity) (ms mf : Message)
    (hstate : p.state = .PS_SLAVE ∨ p.state = .PS_UNCALIBRATED)
    (hs0 : p.last_sync = none) (hf0 : p.last_follow_up = none)
    (hsrc_s : ms.sourcePortIdentity = parent)
    (hsrc_f : mf.sourcePortIdentity = parent)
    (hseq : ms.sequenceId = mf.sequenceId)
    (h2 : ms.flagsOneStep = false) :
    (process_sync parent p ms).2 = none ∧
    (process_follow_up parent (process_sync parent p ms).1 mf).2 =
      some ⟨ms.hwts, mf.pdu, ms.correction, mf.correction⟩ ∧
    (process_follow_up parent p mf).2 = none ∧
    (process_sync parent (process_follow_up parent p mf).1 ms).2 =
      some ⟨ms.hwts, mf.pdu, ms.correction, mf.correction⟩ := by
  obtain ⟨s, pid, sq, dr, ls, lf, lmi, fm, bst⟩ := p
  dsimp only at hs0 hf0 hstate
  subst hs0 hf0
  have hsf : ms.sourcePortIdentity = mf.sourcePortIdentity :=
    hsrc_s.trans hsrc_f.symm
  rcases hstate with h | h <;> subst h <;>
    simp [process_sync, process_follow_up, hsrc_s, hsrc_f, hseq, h2, hsf]

/-- C1 witness at a concrete slave port and message pair. -/
theorem C1_witness :
    (process_sync pidA slave_port c1_sync).2 = none ∧
    (process_follow_up pidA (process_sync pidA slave_port c1_sync).1 c1_fup).2 =
      some ⟨c1_sync.hwts, c1_fup.pdu, c1_sync.correction, c1_fup.correction⟩ ∧
    (process_follow_up pidA slave_port c1_fup).2 = none ∧
    (process_sync pidA (process_follow_up pidA slave_port c1_fup).1 c1_sync).2 =
      some ⟨c1_sync.hwts, c1_fup.pdu, c1_sync.correction, c1_fup.correction⟩ :=
  C1_sync_follow_up_order_independent slave_port pidA c1_sync c1_fup
    (Or.inl rfl) rfl rfl rfl rfl rfl rfl

/-- C5: For a one-step Sync from the parent identity received in
UNCALIBRATED or SLAVE state, `clock_synchronize` is invoked with
t1 = the message's on-wire origin timestamp (`msg.pdu`), t2 = the
hardware ingress timestamp (`msg.hwts`), c1 = the message's correction,
c2 = 0, and the processor returns with the port unchanged. -/
theorem C5_one_step_sync (p : Port) (parent : PortIdentity) (m : Message)
    (hstate : p.state = .PS_UNCALIBRATED ∨ p.state = .PS_SLAVE)
    (hsrc : m.sourcePortIdentity = parent)
    (h1 : m.flagsOneStep = true) :
    process_sync parent p m = (p, some ⟨m.hwts, m.pdu, m.correction, 0⟩) := by
  obtain ⟨s, pid, sq, dr, ls, lf, lmi, fm, bst⟩ := p
  dsimp only at hstate
  rcases hstate with h | h <;> subst h <;> simp [process_sync, hsrc, h1]

/-- C5 witness at a concrete one-step Sync. -/
theorem C5_witness :
    process_sync pidA slave_port c5_msg =
      (slave_port, some ⟨c5_msg.hwts, c5_msg.pdu, c5_msg.correction, 0⟩) :=
  C5_one_step_sync slave_port pidA c5_msg (Or.inr rfl) rfl rfl

/-- C2: `add_foreign_master` returns false when no record matches the
message's sourcePortIdentity, creating a new head record whose queue
stays empty; when a record exists it prunes it, then returns true iff
the pruned record held exactly FOREIGN_MASTER_THRESHOLD - 1 messages
before the add, or the new Announce differs from the pruned record's
head over the compared announce region. -/
theorem C2_add_foreign_master
    (now : Int) (fms : List foreign_clock) (m : Message)
    (hwf : ∀ fc ∈ fms, fc_wf fc) :
    (fms.find? (fun fc => msg_source_equal m fc) = none →
      add_foreign_master now fms m = (new_foreign_clock m :: fms, false) ∧
      (new_foreign_clock m).messages = [])
    ∧ (∀ fc0, fms.find? (fun fc => msg_source_equal m fc) = some fc0 →
      ((add_foreign_master now fms m).2 = true ↔
        ((fc_prune now fc0).n_messages = FOREIGN_MASTER_THRESHOLD - 1 ∨
         ∃ tmp rest, (fc_prune now fc0).messages = tmp :: rest ∧
           m.announce ≠ tmp.announce))) := by
  constructor
  · intro h
    refine ⟨?_, rfl⟩
    simp [add_foreign_master, h]
  · intro fc0 h
    have hpwf : fc_wf (fc_prune now fc0) :=
      fc_prune_wf now fc0 (hwf _ (List.mem_of_find?_eq_some h))
    simp only [add_foreign_master, h]
    cases hms : (fc_prune now fc0).messages with
    | nil =>
      simp [hms, announce_compare]
    | cons tmp rest =>
      have hn : (fc_prune now fc0).n_messages = rest.length + 1 := by
        rw [fc_wf, hms] at hpwf
        simpa using hpwf
      simp [hms, hn, announce_compare]

/-- C2 witness: a second Announce from a known sender with one retained
current message breaks the threshold. -/
theorem C2_witness :
    ((add_foreign_master 0 [c2_fc] (c2_msg 2)).2 = true ↔
      ((fc_prune 0 c2_fc).n_messages = FOREIGN_MASTER_THRESHOLD - 1 ∨
       ∃ tmp rest, (fc_prune 0 c2_fc).messages = tmp :: rest ∧
         (c2_msg 2).announce ≠ tmp.announce)) :=
  (C2_add_foreign_master 0 [c2_fc] (c2_msg 2) (by decide)).2 c2_fc (by decide)

/-- C3 as claimed is false; what the code maintains instead: pruning
bounds the counter by FOREIGN_MASTER_THRESHOLD, and both add
operations preserve counter = queue length together with the weaker
bound counter ≤ FOREIGN_MASTER_THRESHOLD + 1 (the add itself happens
after the prune, so a full record grows to THRESHOLD + 1). -/
theorem C3_amended_invariant (now : Int) (m : Message) :
    (∀ fc : foreign_clock, (fc_prune now fc).n_messages ≤ FOREIGN_MASTER_THRESHOLD)
    ∧ (∀ fms : List foreign_clock, (∀ fc ∈ fms, fc_inv fc) →
        ∀ fc' ∈ (add_foreign_master now fms m).1, fc_inv fc')
    ∧ (∀ p : Port, (∀ fc ∈ p.foreign_masters, fc_inv fc) →
        ∀ fc' ∈ (update_current_master now p m).1.foreign_masters, fc_inv fc') :=
  ⟨fun fc => fc_prune_le now fc,
   fun fms h => add_foreign_master_inv now fms m h,
   fun p h => update_current_master_inv now p m h⟩

/-- C3 witness: the preserved invariant at a concrete add. -/
theorem C3_witness :
    ∀ fc' ∈ (add_foreign_master 0 [c2_fc] (c2_msg 2)).1, fc_inv fc' :=
  (C3_amended_invariant 0 (c2_msg 2)).2.1 [c2_fc] (by decide)

/-- `process_delay_resp` leaves the port unchanged except possibly for
the adopted logMinDelayReqInterval. -/
theorem process_delay_resp_fst (p : Port) (m : Message) :
    (process_delay_resp p m).1 = p ∨
    (process_delay_resp p m).1 =
      { p with logMinDelayReqInterval := m.logMessageInterval } := by
  unfold process_delay_resp
  cases p.delay_req with
  | none => exact Or.inl rfl
  | some req =>
    cases p.state <;> first
    | exact Or.inl rfl
    | (dsimp only
       split_ifs <;> first | exact Or.inl rfl | exact Or.inr rfl)

/-- C6: `process_delay_resp` invokes `clock_path_delay` exactly when an
outstanding delay_req exists, the state is UNCALIBRATED or SLAVE, the
requestingPortIdentity matches the outstanding request's source
identity, and the sequenceId matches the stored (network-byte-order)
request id after conversion; on any failed condition the response is
ignored and no port field changes. -/
theorem C6_delay_resp_gating (p : Port) (m : Message) :
    ((process_delay_resp p m).2.isSome ↔
      ∃ req, p.delay_req = some req ∧
        (p.state = .PS_UNCALIBRATED ∨ p.state = .PS_SLAVE) ∧
        m.requestingPortIdentity = req.sourcePortIdentity ∧
        m.sequenceId = ntohs req.sequenceId)
    ∧ ((process_delay_resp p m).2 = none → (process_delay_resp p m).1 = p) := by
  obtain ⟨s, pid, sq, dr, ls, lf, lmi, fm, bst⟩ := p
  rcases dr with _ | req
  · exact ⟨by simp [process_delay_resp], fun _ => rfl⟩
  · cases s <;>
    (refine ⟨?_, ?_⟩
     · by_cases h1 : m.requestingPortIdentity = req.sourcePortIdentity <;>
       by_cases h2 : m.sequenceId = ntohs req.sequenceId <;>
         simp [process_delay_resp, h1, h2]
     · intro hnone
       by_cases h1 : m.requestingPortIdentity = req.sourcePortIdentity <;>
       by_cases h2 : m.sequenceId = ntohs req.sequenceId <;>
         simp [process_delay_resp, h1, h2] at hnone ⊢)

/-- C6 witness at a concrete matching Delay_Resp. -/
theorem C6_witness :
    ((process_delay_resp c6_port c6_resp).2.isSome ↔
      ∃ req, c6_port.delay_req = some req ∧
        (c6_port.state = .PS_UNCALIBRATED ∨ c6_port.state = .PS_SLAVE) ∧
        c6_resp.requestingPortIdentity = req.sourcePortIdentity ∧
        c6_resp.sequenceId = ntohs req.sequenceId)
    ∧ ((process_delay_resp c6_port c6_resp).2 = none →
        (process_delay_resp c6_port c6_resp).1 = c6_port) :=
  C6_delay_resp_gating c6_port c6_resp

/-- C10: processing a matching Delay_Resp does not consume or release
the outstanding delay_req; a second identical Delay_Resp invokes
`clock_path_delay` again with the same t3; the outstanding request is
only replaced when the next Delay_Req is successfully sent. -/
theorem C10_outstanding_request_retained (p : Port) (m : Message) (env : PortEnv) :
    ((process_delay_resp p m).1.delay_req = p.delay_req)
    ∧ (∀ req, p.delay_req = some req →
        (p.state = .PS_UNCALIBRATED ∨ p.state = .PS_SLAVE) →
        m.requestingPortIdentity = req.sourcePortIdentity →
        m.sequenceId = ntohs req.sequenceId →
        (process_delay_resp p m).2 = some ⟨req.hwts, m.pdu, m.correction⟩ ∧
        (process_delay_resp (process_delay_resp p m).1 m).2 =
          some ⟨req.hwts, m.pdu, m.correction⟩)
    ∧ ((port_delay_request p env).2 = true →
        (port_delay_request p env).1.delay_req = some (delay_req_message p env))
    ∧ ((port_delay_request p env).2 = false →
        (port_delay_request p env).1.delay_req = p.delay_req) := by
  refine ⟨?_, ?_, ?_, ?_⟩
  · rcases process_delay_resp_fst p m with h | h <;> simp [h]
  · intro req hreq hstate h1 h2
    obtain ⟨s, pid, sq, dr, ls, lf, lmi, fm, bst⟩ := p
    dsimp only at hreq hstate
    subst hreq
    rcases hstate with h | h <;> subst h <;>
      by_cases h3 : lmi = m.logMessageInterval <;>
        simp [process_delay_resp, h1, h2, h3]
  · intro hok
    unfold port_delay_request at hok ⊢
    split_ifs at hok ⊢
    simp_all
  · intro hfail
    unfold port_delay_request at hfail ⊢
    split_ifs at hfail ⊢ <;> simp_all

/-- C10 witness: a duplicate matching Delay_Resp fires `path_delay`
twice with the same t3. -/
theorem C10_witness :
    (process_delay_resp c6_port c6_resp).2 =
      some ⟨c6_req.hwts, c6_resp.pdu, c6_resp.correction⟩ ∧
    (process_delay_resp (process_delay_resp c6_port c6_resp).1 c6_resp).2 =
      some ⟨c6_req.hwts, c6_resp.pdu, c6_resp.correction⟩ :=
  (C10_outstanding_request_retained c6_port c6_resp all_ok_env).2.1 c6_req rfl
    (Or.inr rfl) rfl rfl

/-- C7 amended: the Delay_Resp built in MASTER/GRAND_MASTER carries
receiveTimestamp with nanoseconds and the LOW 32 bits of the seconds
from the request's ingress hardware timestamp, while seconds_msb is
written as the constant 0 — so the encoding equals the ingress time
exactly when the seconds value fits in 32 bits. -/
theorem C7_delay_resp_receive_timestamp (p : Port) (env : PortEnv) (m : Message)
    (hstate : p.state = .PS_MASTER ∨ p.state = .PS_GRAND_MASTER)
    (halloc : env.replyAllocOk = true) (hpre : env.preSendOk = true)
    (hsend : env.sendOk = true) :
    process_delay_req p env m = some (build_delay_resp p m) ∧
    (build_delay_resp p m).receiveTimestamp.seconds_msb = 0 ∧
    (build_delay_resp p m).receiveTimestamp.seconds_lsb =
      (m.hwts.tv_sec % (2 ^ 32 : Int)).toNat ∧
    (build_delay_resp p m).receiveTimestamp.nanoseconds =
      (m.hwts.tv_nsec % (2 ^ 32 : Int)).toNat ∧
    (0 ≤ m.hwts.tv_sec → m.hwts.tv_sec < 2 ^ 32 →
      ((build_delay_resp p m).receiveTimestamp.seconds_msb * 2 ^ 32 +
        (build_delay_resp p m).receiveTimestamp.seconds_lsb : Int) =
        m.hwts.tv_sec) := by
  refine ⟨?_, rfl, rfl, rfl, ?_⟩
  · rcases hstate with h | h <;>
      simp [process_delay_req, h, halloc, hpre, hsend]
  · intro hpos hlt
    simp only [build_delay_resp]
    omega

/-- C7 amended witness at a concrete in-range ingress timestamp. -/
theorem C7_witness :
    process_delay_req master_port all_ok_env c7w_msg =
      some (build_delay_resp master_port c7w_msg) ∧
    (build_delay_resp master_port c7w_msg).receiveTimestamp.seconds_msb = 0 ∧
    (build_delay_resp master_port c7w_msg).receiveTimestamp.seconds_lsb =
      (c7w_msg.hwts.tv_sec % (2 ^ 32 : Int)).toNat ∧
    (build_delay_resp master_port c7w_msg).receiveTimestamp.nanoseconds =
      (c7w_msg.hwts.tv_nsec % (2 ^ 32 : Int)).toNat ∧
    (0 ≤ c7w_msg.hwts.tv_sec → c7w_msg.hwts.tv_sec < 2 ^ 32 →
      ((build_delay_resp master_port c7w_msg).receiveTimestamp.seconds_msb * 2 ^ 32 +
        (build_delay_resp master_port c7w_msg).receiveTimestamp.seconds_lsb : Int) =
        c7w_msg.hwts.tv_sec) :=
  C7_delay_resp_receive_timestamp master_port all_ok_env c7w_msg (Or.inl rfl)
    rfl rfl rfl

/-- C7 counterexample: at ingress seconds 2^32 the upper 16 bits of the
seconds value are 1, but the built response writes seconds_msb = 0 and
its encoded seconds decode to 0, not 2^32. -/
theorem C7_counterexample :
    master_port.state = .PS_MASTER ∧
    c7_msg.hwts.tv_sec = 2 ^ 32 ∧
    process_delay_req master_port all_ok_env c7_msg =
      some (build_delay_resp master_port c7_msg) ∧
    ((c7_msg.hwts.tv_sec / 2 ^ 32) % 2 ^ 16 : Int) = 1 ∧
    (build_delay_resp master_port c7_msg).receiveTimestamp.seconds_msb = 0 ∧
    ((build_delay_resp master_port c7_msg).receiveTimestamp.seconds_msb * 2 ^ 32 +
      (build_delay_resp master_port c7_msg).receiveTimestamp.seconds_lsb : Int)
      ≠ c7_msg.hwts.tv_sec := by
  decide

/-- C8 amended: a send failure on the delay-timer path, an allocation
failure and a receive failure on the network path each yield
FAULT_DETECTED; but the error return of `process_delay_req` — covering
a failed Delay_Resp reply send — is discarded, and a received
Delay_Req always yields EV_NONE. -/
theorem C8_fault_event_paths (parent : PortIdentity) (now : Int) (p : Port)
    (env : PortEnv) :
    ((port_delay_request p env).2 = false →
      port_event parent now p .FD_DELAY_TIMER env =
        (.EV_FAULT_DETECTED, (port_delay_request p env).1))
    ∧ (env.allocOk = false →
      (port_event parent now p .FD_NET env).1 = .EV_FAULT_DETECTED)
    ∧ (env.allocOk = true → env.recvOk = false →
      (port_event parent now p .FD_NET env).1 = .EV_FAULT_DETECTED)
    ∧ (env.allocOk = true → env.recvOk = true → env.postRecvOk = true →
      env.recvMsg.tsmt = .DELAY_REQ →
      (port_event parent now p .FD_NET env).1 = .EV_NONE) := by
  refine ⟨?_, ?_, ?_, ?_⟩
  · intro h
    simp [port_event, h]
  · intro h
    simp [port_event, h]
  · intro h1 h2
    simp [port_event, h1, h2]
  · intro h1 h2 h3 h4
    simp [port_event, h1, h2, h3, h4]

/-- C8 amended witness: the delay-timer path surfaces a send failure as
FAULT_DETECTED. -/
theorem C8_witness :
    port_event pidA 0 master_port .FD_DELAY_TIMER send_fail_env =
      (.EV_FAULT_DETECTED, (port_delay_request master_port send_fail_env).1) :=
  (C8_fault_event_paths pidA 0 master_port send_fail_env).1 (by decide)

/-- C8 counterexample: a Delay_Resp reply whose transport send fails
inside `port_event`'s processing still makes `port_event` return
EV_NONE, not FAULT_DETECTED. -/
theorem C8_counterexample :
    master_port.state = .PS_MASTER ∧
    send_fail_env.recvMsg.tsmt = .DELAY_REQ ∧
    send_fail_env.sendOk = false ∧
    process_delay_req master_port send_fail_env send_fail_env.recvMsg = none ∧
    (port_event pidA 0 master_port .FD_NET send_fail_env).1 = .EV_NONE ∧
    fsm_event.EV_NONE ≠ fsm_event.EV_FAULT_DETECTED := by
  decide

/-- C9 amended: after `port_dispatch` the state is never INITIALIZING;
when `ptp_fsm` yields INITIALIZING the port is initialized at once,
landing in LISTENING on success and FAULTY on failure; and when
`ptp_fsm` yields the current state AND that state is not INITIALIZING,
dispatch changes nothing — no timer action, no state write. -/
theorem C9_dispatch_skips_init (fsm : port_state → fsm_event → port_state)
    (initOk : Bool) (p : Port) (ev : fsm_event) :
    ((port_dispatch fsm initOk p ev).1.state ≠ .PS_INITIALIZING)
    ∧ (fsm p.state ev = .PS_INITIALIZING →
        (port_dispatch fsm initOk p ev).1.state =
          (if initOk then .PS_LISTENING else .PS_FAULTY))
    ∧ (fsm p.state ev = p.state → p.state ≠ .PS_INITIALIZING →
        port_dispatch fsm initOk p ev = (p, [])) := by
  by_cases h1 : fsm p.state ev = .PS_INITIALIZING
  · cases initOk <;>
      exact ⟨by simp [port_dispatch, h1], fun _ => by simp [port_dispatch, h1],
             fun he hne => absurd (he.symm.trans h1) hne⟩
  · by_cases h2 : fsm p.state ev = p.state
    · have hs : ¬(p.state = port_state.PS_INITIALIZING) :=
        fun hc => h1 (h2.trans hc)
      have hd : port_dispatch fsm initOk p ev = (p, []) := by
        simp [port_dispatch, h2, hs]
      refine ⟨?_, fun hI => absurd hI h1, fun _ _ => hd⟩
      rw [hd]
      exact hs
    · refine ⟨?_, fun hI => absurd hI h1, fun he _ => absurd he h2⟩
      cases hn : fsm p.state ev <;> simp_all [port_dispatch]

/-- C9 amended witness: a stay-put transition away from INITIALIZING is
a strict no-op. -/
theorem C9_witness :
    port_dispatch c9_stay_fsm true slave_port .EV_NONE = (slave_port, []) :=
  (C9_dispatch_skips_init c9_stay_fsm true slave_port .EV_NONE).2.2 rfl (by decide)

/-- C9 counterexample: when `ptp_fsm` yields the current state and that
state is INITIALIZING (the bootstrap situation), dispatch does NOT
leave the port untouched: it initializes, writes LISTENING and arms
the announce timer. -/
theorem C9_counterexample :
    c9_fsm c9_port.state .EV_NONE = c9_port.state ∧
    (port_dispatch c9_fsm true c9_port .EV_NONE).1.state = .PS_LISTENING ∧
    (port_dispatch c9_fsm true c9_port .EV_NONE).2 = [.set_announce_tmo] ∧
    (port_dispatch c9_fsm true c9_port .EV_NONE).1.state ≠ c9_port.state := by
  decide

/-- C4: `port_compute_best` returns none iff, after pruning, no record
is at the qualification threshold; a record that is qualified but loses
the `dscmp` comparison against the running best leaves the step with
its message queue cleared; and — for a comparator that is asymmetric
and negatively transitive, as a BMC ranking is — the returned record is
never one that another qualified record beats under `dscmp`. -/
theorem C4_port_compute_best (d : Dataset → Dataset → Int) (now : Int)
    (parent : PortIdentity) (fms : List foreign_clock)
    (hwf : ∀ fc ∈ fms, fc_wf fc)
    (Hasym : ∀ a b, 0 < d a b → d b a ≤ 0)
    (Hnegtr : ∀ a b c, d a b ≤ 0 → d b c ≤ 0 → d a c ≤ 0) :
    ((port_compute_best d now parent fms).2 = none ↔
      ∀ fc ∈ fms, (fc_prune now fc).n_messages < FOREIGN_MASTER_THRESHOLD)
    ∧ (∀ acc fc tmp best, fc_wf fc → fc.messages.head? = some tmp →
        FOREIGN_MASTER_THRESHOLD ≤ (fc_prune now fc).n_messages →
        acc.2 = some best →
        d (announce_to_dataset tmp parent) best.dataset ≤ 0 →
        compute_best_step d now parent acc fc =
          (acc.1 ++ [fc_clear { fc_prune now fc with
              dataset := announce_to_dataset tmp parent }], acc.2) ∧
        (fc_clear { fc_prune now fc with
            dataset := announce_to_dataset tmp parent }).messages = [])
    ∧ (∀ b, (port_compute_best d now parent fms).2 = some b →
        ∀ fc ∈ fms, ∀ tmp, fc.messages.head? = some tmp →
          FOREIGN_MASTER_THRESHOLD ≤ (fc_prune now fc).n_messages →
          d (announce_to_dataset tmp parent) b.dataset ≤ 0) := by
  refine ⟨?_, ?_, ?_⟩
  · rw [port_compute_best, compute_best_fold_none_iff]
    constructor
    · rintro ⟨_, hall⟩ fc hfc
      exact (unqual_iff now fc (hwf fc hfc)).mp (hall fc hfc)
    · intro hall
      exact ⟨rfl, fun fc hfc => (unqual_iff now fc (hwf fc hfc)).mpr (hall fc hfc)⟩
  · intro acc fc tmp best hfcwf hhead hq hacc hle
    have hnotlt : ¬((fc_prune now fc).n_messages < FOREIGN_MASTER_THRESHOLD) :=
      not_lt.mpr hq
    have hnotgt : ¬(d (announce_to_dataset tmp parent) best.dataset > 0) :=
      not_lt.mpr hle
    constructor
    · simp [compute_best_step, hhead, hnotlt, hacc, hnotgt]
    · exact fc_clear_empty _ (fc_prune_wf now fc hfcwf)
  · intro b hb fc hfc tmp hhead hq
    exact (compute_best_sound d now parent Hasym Hnegtr fms ([], none) b hb).1
      fc hfc tmp hhead hq

/-- C4 witness at a concrete table with one qualified record and the
trivial comparator. -/
theorem C4_witness :
    ((port_compute_best (fun _ _ => 0) 0 pidA [c3_fc]).2 = none ↔
      ∀ fc ∈ [c3_fc], (fc_prune 0 fc).n_messages < FOREIGN_MASTER_THRESHOLD) ∧
    (∀ b, (port_compute_best (fun _ _ => 0) 0 pidA [c3_fc]).2 = some b →
      ∀ fc ∈ [c3_fc], ∀ tmp, fc.messages.head? = some tmp →
        FOREIGN_MASTER_THRESHOLD ≤ (fc_prune 0 fc).n_messages →
        (fun (_ _ : Dataset) => (0 : Int)) (announce_to_dataset tmp pidA) b.dataset ≤ 0) :=
  ⟨(C4_port_compute_best (fun _ _ => 0) 0 pidA [c3_fc] (by decide)
      (fun _ _ h => absurd h (by simp)) (fun _ _ _ h1 _ => h1)).1,
   (C4_port_compute_best (fun _ _ => 0) 0 pidA [c3_fc] (by decide)
      (fun _ _ h => absurd h (by simp)) (fun _ _ _ h1 _ => h1)).2.2⟩

/-- C3 counterexample: a well-formed record already holding
FOREIGN_MASTER_THRESHOLD current messages ends an
`add_foreign_master` — which prunes before adding — with
FOREIGN_MASTER_THRESHOLD + 1 messages, so `n_messages` exceeds the
threshold at a quiescent point. -/
theorem C3_counterexample :
    (∀ fc ∈ [c3_fc], fc_wf fc) ∧
    ((add_foreign_master 0 [c3_fc] (c2_msg 3)).1.head?.map
        foreign_clock.n_messages) = some (FOREIGN_MASTER_THRESHOLD + 1) ∧
    ¬(FOREIGN_MASTER_THRESHOLD + 1 ≤ FOREIGN_MASTER_THRESHOLD) := by
  decide

end LinuxPtp
